import Mathlib

/-!
Verification development for the KINESO kinematics module
(`resources/js/kinematics.js`).

The numerical core is shallowly embedded over the rationals `ℚ`
(idealised exact arithmetic in place of IEEE doubles).  JavaScript
arrays become `List ℚ`; out-of-range reads, which the source never
performs within its documented preconditions, are translated with
`List.getD _ _ 0`.  Every definition mirrors the corresponding source
function line by line; names follow the source.
-/

namespace Kineso

/-- Scale factor `10^8` used by `Number(v.toFixed(8))` in `computeKinematics`. -/
def pow8 : ℤ := 100000000

/-- Model of `Number(v.toFixed(8))`: rounding to 8 decimal fractional digits.
`Number.prototype.toFixed` first takes the absolute value, then picks the
integer `n` minimising `|n / 10^8 - |v||`, ties going to the larger `n`;
the sign is reattached afterwards. -/
def round8 (q : ℚ) : ℚ :=
  if q < 0 then -((⌊(-q) * (pow8 : ℚ) + 1/2⌋ : ℤ) : ℚ) / (pow8 : ℚ)
  else ((⌊q * (pow8 : ℚ) + 1/2⌋ : ℤ) : ℚ) / (pow8 : ℚ)

/-- The `1e-12` slack in the loop guard `t <= t1 + 1e-12` of `computeKinematics`. -/
def eps : ℚ := 1 / 1000000000000

/-- One row pushed by the loop body of `computeKinematics`:
`times.push(...); xs.push(...); vs.push(...); as.push(...)`. -/
structure Sample where
  t : ℚ
  x : ℚ
  v : ℚ
  a : ℚ
  deriving Repr, DecidableEq

/-- The sample pushed at loop time `t`:
`x = x0 + v0*t + 0.5*a*t*t`, `v = v0 + a*t`, each stored via `toFixed(8)`. -/
def kinSample (x0 v0 a t : ℚ) : Sample :=
  ⟨round8 t, round8 (x0 + v0 * t + (1/2) * a * (t * t)), round8 (v0 + a * t), round8 a⟩

/-- The sampling loop of `computeKinematics`:
`for (let t = t0; t <= t1 + 1e-12; t += dt) { push; if (times.length >= maxPoints) break; }`.
`fuel` is `maxPoints` minus the number of samples already pushed; after a push
the loop breaks exactly when the new count reaches `maxPoints`, i.e. when
`fuel ≤ 1` on entry. -/
def kinGo (x0 v0 a dt t1e : ℚ) : ℚ → ℕ → List Sample
  | t, 0 => if t ≤ t1e then [kinSample x0 v0 a t] else []
  | t, 1 => if t ≤ t1e then [kinSample x0 v0 a t] else []
  | t, fuel + 2 =>
    if t ≤ t1e then kinSample x0 v0 a t :: kinGo x0 v0 a dt t1e (t + dt) (fuel + 1)
    else []

/-- Result record of `computeKinematics`: `{ times, xs, vs, as }`. -/
structure KinData where
  times : List ℚ
  xs : List ℚ
  vs : List ℚ
  accs : List ℚ
  deriving Repr, DecidableEq

/-- The generator `computeKinematics(x0, v0, a, t0, t1, dt, maxPoints)`.
Returns four empty arrays when `dt <= 0`; otherwise runs the sampling loop. -/
def computeKinematics (x0 v0 a t0 t1 dt : ℚ) (maxPoints : ℕ) : KinData :=
  if dt ≤ 0 then ⟨[], [], [], []⟩
  else
    let samples := kinGo x0 v0 a dt (t1 + eps) t0 maxPoints
    ⟨samples.map Sample.t, samples.map Sample.x, samples.map Sample.v, samples.map Sample.a⟩

/-- Differentiator `computeVFromX(xs, dt)`: forward difference at `i = 0`, backward at
`i = n-1`, central difference `(xs[i+1]-xs[i-1])/(2*dt)` in the interior. -/
def computeVFromX (xs : List ℚ) (dt : ℚ) : List ℚ :=
  let n := xs.length
  (List.range n).map fun i =>
    if i = 0 then (xs.getD 1 0 - xs.getD 0 0) / dt
    else if i = n - 1 then (xs.getD (n-1) 0 - xs.getD (n-2) 0) / dt
    else (xs.getD (i+1) 0 - xs.getD (i-1) 0) / (2 * dt)

/-- Differentiator `computeAFromX(xs, dt)`: second differences; at `i = 0` the triple
`[0,1,2]` is used, at `i = n-1` the triple `[n-3,n-2,n-1]`. -/
def computeAFromX (xs : List ℚ) (dt : ℚ) : List ℚ :=
  let n := xs.length
  (List.range n).map fun i =>
    if i = 0 then (xs.getD 2 0 - 2 * xs.getD 1 0 + xs.getD 0 0) / (dt * dt)
    else if i = n - 1 then (xs.getD (n-1) 0 - 2 * xs.getD (n-2) 0 + xs.getD (n-3) 0) / (dt * dt)
    else (xs.getD (i+1) 0 - 2 * xs.getD i 0 + xs.getD (i-1) 0) / (dt * dt)

/-- Differentiator `computeAFromV(vs, dt)`: same finite-difference pattern as `computeVFromX`. -/
def computeAFromV (vs : List ℚ) (dt : ℚ) : List ℚ :=
  let n := vs.length
  (List.range n).map fun i =>
    if i = 0 then (vs.getD 1 0 - vs.getD 0 0) / dt
    else if i = n - 1 then (vs.getD (n-1) 0 - vs.getD (n-2) 0) / dt
    else (vs.getD (i+1) 0 - vs.getD (i-1) 0) / (2 * dt)

/-- Integrator `integrateVToX(vs, x0, dt)`: trapezoidal rule.  The source writes
`xs[0] = x0` unconditionally on `new Array(n)` — for `n = 0` this still
produces the one-element array `[x0]` — then
`xs[k] = xs[k-1] + 0.5*(vs[k-1]+vs[k])*dt` for `1 ≤ k < n`; the adjacent
pairs `(vs[k-1], vs[k])` are exactly `vs.zip vs.tail`. -/
def integrateVToX (vs : List ℚ) (x0 dt : ℚ) : List ℚ :=
  (vs.zip vs.tail).scanl (fun xp p => xp + (1/2) * (p.1 + p.2) * dt) x0

/-- Integrator `integrateAToV(as, v0, dt)`: forward Euler.  `vs[0] = v0` is written
unconditionally (so the empty input yields `[v0]`), then
`vs[k] = vs[k-1] + as[k-1]*dt` for `1 ≤ k < n`; the values `as[k-1]`
consumed are exactly `accs.dropLast`. -/
def integrateAToV (accs : List ℚ) (v0 dt : ℚ) : List ℚ :=
  accs.dropLast.scanl (fun vp ak => vp + ak * dt) v0

/-- The shared state record mutated by `applyDragSync`:
`{ times, xs, vs, as, x0, v0, dt }`. -/
structure DragState where
  times : List ℚ
  xs : List ℚ
  vs : List ℚ
  accs : List ℚ
  x0 : ℚ
  v0 : ℚ
  dt : ℚ
  deriving Repr, DecidableEq

/-- The edit-propagation protocol `applyDragSync(chartType, index, newValue, state)`.  The source
compares `chartType` against the strings `'position'`, `'velocity'`,
`'acceleration'`; any other string leaves the arrays untouched.  In-place
mutation (`xs[index] = newValue` followed by `splice` replacement of the
other arrays) becomes functional record update. -/
def applyDragSync (chartType : String) (index : ℕ) (newValue : ℚ)
    (state : DragState) : DragState :=
  if chartType = "position" then
    let xs1 := state.xs.set index newValue
    { state with
      xs := xs1
      vs := computeVFromX xs1 state.dt
      accs := computeAFromX xs1 state.dt }
  else if chartType = "velocity" then
    let vs1 := state.vs.set index newValue
    { state with
      vs := vs1
      xs := integrateVToX vs1 state.x0 state.dt
      accs := computeAFromV vs1 state.dt }
  else if chartType = "acceleration" then
    let accs1 := state.accs.set index newValue
    let newV := integrateAToV accs1 state.v0 state.dt
    { state with
      accs := accs1
      vs := newV
      xs := integrateVToX newV state.x0 state.dt }
  else state

/-- Scale factor `10^6` used by `v.toFixed(6)` in `csvFromData`. -/
def pow6 : ℤ := 1000000

/-- Decimal digits of a natural number (most significant first), written with
fuel-based structural recursion; models the decimal printing JavaScript uses
for the integer part of a number. -/
def natDigits : ℕ → ℕ → List Char
  | 0, _ => []
  | fuel + 1, n => if n = 0 then [] else natDigits fuel (n / 10) ++ [Char.ofNat (48 + n % 10)]

/-- Decimal rendering of a natural number. -/
def natToStr (n : ℕ) : String :=
  if n = 0 then "0" else String.mk (natDigits n n)

/-- Decimal rendering of an integer. -/
def intToStr (i : ℤ) : String :=
  if i < 0 then "-" ++ natToStr i.natAbs else natToStr i.toNat

/-- Model of `|q|.toFixed(6)` for nonnegative `q`: the integer nearest to `q * 10^6`
(ties to the larger), printed with the fractional part left-padded to six
digits. -/
def toFixed6Abs (q : ℚ) : String :=
  let scaled : ℤ := ⌊q * (pow6 : ℚ) + 1/2⌋
  let ip := scaled / pow6
  let fp := (scaled % pow6).toNat
  let fpDigits := natToStr fp
  let padding := String.mk (List.replicate (6 - fpDigits.length) (Char.ofNat 48))
  intToStr ip ++ "." ++ padding ++ fpDigits

/-- Model of `q.toFixed(6)` as in ECMAScript: sign handled first, then the
nonnegative rounding of `toFixed6Abs`. -/
def toFixed6 (q : ℚ) : String :=
  if q < 0 then "-" ++ toFixed6Abs (-q) else toFixed6Abs q

/-- Exporter `csvFromData(times, xs, vs, as)`: a header row followed by one row of
`toFixed(6)` values per sample, each row joined with `','`, the rows joined
with `'\n'`. -/
def csvFromData (times xs vs accs : List ℚ) : String :=
  let header : List String := ["t (s)", "x (m)", "v (m/s)", "a (m/s^2)"]
  let rows := (List.range times.length).map fun i =>
    [toFixed6 (times.getD i 0), toFixed6 (xs.getD i 0),
     toFixed6 (vs.getD i 0), toFixed6 (accs.getD i 0)]
  String.intercalate "\n" ((header :: rows).map fun r => String.intercalate "," r)

/-- One CSV data row as the spec words it: the four values of a sample,
each formatted with fixed 6-decimal formatting, comma-separated. -/
def csvRowStr (r : ℚ × ℚ × ℚ × ℚ) : String :=
  String.intercalate "," [toFixed6 r.1, toFixed6 r.2.1, toFixed6 r.2.2.1, toFixed6 r.2.2.2]

/-- The CSV serialization as the (amended) spec words it: the header row
`t (s),x (m),v (m/s),a (m/s^2)` followed by one data row per sample, rows
separated by single newlines with no trailing newline. -/
def csvSpec (rows : List (ℚ × ℚ × ℚ × ℚ)) : String :=
  String.intercalate "\n" ("t (s),x (m),v (m/s),a (m/s^2)" :: rows.map csvRowStr)

/-- A concrete example state used by witnesses: the parabola `x = t²` sampled
at `t = 0, 1, 2` with `dt = 1`. -/
def exState : DragState :=
  ⟨[0, 1, 2], [0, 1, 4], [1, 2, 3], [2, 2, 2], 0, 1, 1⟩

/-! ### General lemmas about the embedded definitions -/

/-- Reading index `i < n` of `(List.range n).map f` yields `f i`. -/
theorem rangeMap_getD (f : ℕ → ℚ) {n i : ℕ} (hi : i < n) :
    ((List.range n).map f).getD i 0 = f i := by
  rw [List.getD_eq_getElem?_getD]
  simp [List.getElem?_range, hi]

theorem computeVFromX_length (xs : List ℚ) (dt : ℚ) :
    (computeVFromX xs dt).length = xs.length := by
  simp [computeVFromX]

theorem computeAFromX_length (xs : List ℚ) (dt : ℚ) :
    (computeAFromX xs dt).length = xs.length := by
  simp [computeAFromX]

theorem computeAFromV_length (vs : List ℚ) (dt : ℚ) :
    (computeAFromV vs dt).length = vs.length := by
  simp [computeAFromV]

theorem integrateVToX_length (vs : List ℚ) (x0 dt : ℚ) :
    (integrateVToX vs x0 dt).length = max vs.length 1 := by
  unfold integrateVToX
  rw [List.length_scanl, List.length_zip, List.length_tail]
  omega

theorem integrateAToV_length (accs : List ℚ) (v0 dt : ℚ) :
    (integrateAToV accs v0 dt).length = max accs.length 1 := by
  unfold integrateAToV
  rw [List.length_scanl, List.length_dropLast]
  omega

theorem computeVFromX_getD (xs : List ℚ) (dt : ℚ) {i : ℕ} (hi : i < xs.length) :
    (computeVFromX xs dt).getD i 0 =
      if i = 0 then (xs.getD 1 0 - xs.getD 0 0) / dt
      else if i = xs.length - 1 then
        (xs.getD (xs.length-1) 0 - xs.getD (xs.length-2) 0) / dt
      else (xs.getD (i+1) 0 - xs.getD (i-1) 0) / (2 * dt) := by
  unfold computeVFromX
  exact rangeMap_getD _ hi

theorem computeAFromX_getD (xs : List ℚ) (dt : ℚ) {i : ℕ} (hi : i < xs.length) :
    (computeAFromX xs dt).getD i 0 =
      if i = 0 then (xs.getD 2 0 - 2 * xs.getD 1 0 + xs.getD 0 0) / (dt * dt)
      else if i = xs.length - 1 then
        (xs.getD (xs.length-1) 0 - 2 * xs.getD (xs.length-2) 0 + xs.getD (xs.length-3) 0) / (dt * dt)
      else (xs.getD (i+1) 0 - 2 * xs.getD i 0 + xs.getD (i-1) 0) / (dt * dt) := by
  unfold computeAFromX
  exact rangeMap_getD _ hi

theorem computeAFromV_getD (vs : List ℚ) (dt : ℚ) {i : ℕ} (hi : i < vs.length) :
    (computeAFromV vs dt).getD i 0 =
      if i = 0 then (vs.getD 1 0 - vs.getD 0 0) / dt
      else if i = vs.length - 1 then
        (vs.getD (vs.length-1) 0 - vs.getD (vs.length-2) 0) / dt
      else (vs.getD (i+1) 0 - vs.getD (i-1) 0) / (2 * dt) := by
  unfold computeAFromV
  exact rangeMap_getD _ hi

/-- Single unfolding equation for the sampling loop. -/
theorem kinGo_unfold (x0 v0 a dt t1e t : ℚ) (fuel : ℕ) :
    kinGo x0 v0 a dt t1e t fuel =
      if t ≤ t1e then
        kinSample x0 v0 a t ::
          (if 2 ≤ fuel then kinGo x0 v0 a dt t1e (t + dt) (fuel - 1) else [])
      else [] := by
  match fuel with
  | 0 => simp [kinGo]
  | 1 => simp [kinGo]
  | n + 2 => simp [kinGo]

/-- Soundness of the sampling loop: the `k`-th stored sample is the kinematic
sample at `t + k·dt`, and that time satisfies the loop guard. -/
theorem kinGo_getD (x0 v0 a dt t1e : ℚ) :
    ∀ (fuel : ℕ) (t : ℚ) (k : ℕ), k < (kinGo x0 v0 a dt t1e t fuel).length →
      (kinGo x0 v0 a dt t1e t fuel).getD k ⟨0, 0, 0, 0⟩ = kinSample x0 v0 a (t + k * dt)
        ∧ t + (k : ℚ) * dt ≤ t1e := by
  intro fuel
  induction fuel using Nat.strong_induction_on with
  | _ fuel ih =>
    intro t k hk
    rw [kinGo_unfold] at hk ⊢
    by_cases htle : t ≤ t1e
    · rw [if_pos htle] at hk ⊢
      match k with
      | 0 =>
        refine ⟨?_, ?_⟩
        · rw [List.getD_cons_zero]
          congr 1
          push_cast
          ring
        · push_cast
          linarith
      | k + 1 =>
        rw [List.length_cons] at hk
        have hk0 : k < (if 2 ≤ fuel then kinGo x0 v0 a dt t1e (t + dt) (fuel - 1) else []).length := by
          omega
        by_cases h2 : 2 ≤ fuel
        · rw [if_pos h2] at hk0 ⊢
          obtain ⟨hs, hc⟩ := ih (fuel - 1) (by omega) (t + dt) k hk0
          refine ⟨?_, ?_⟩
          · rw [List.getD_cons_succ, hs]
            congr 1
            push_cast
            ring
          · push_cast at hc ⊢
            linarith
        · rw [if_neg h2] at hk0
          simp at hk0
    · rw [if_neg htle] at hk
      simp at hk

/-- Completeness of the sampling loop: every step index below the point cap
whose time satisfies the guard is sampled. -/
theorem kinGo_length_ge (x0 v0 a dt t1e : ℚ) (hdt : 0 < dt) :
    ∀ (fuel : ℕ) (t : ℚ) (k : ℕ), k < max fuel 1 → t + k * dt ≤ t1e →
      k < (kinGo x0 v0 a dt t1e t fuel).length := by
  intro fuel
  induction fuel using Nat.strong_induction_on with
  | _ fuel ih =>
    intro t k hk hle
    have hknn : (0:ℚ) ≤ (k:ℚ) * dt := mul_nonneg (Nat.cast_nonneg k) hdt.le
    have htle : t ≤ t1e := by linarith
    rw [kinGo_unfold, if_pos htle, List.length_cons]
    match k with
    | 0 => omega
    | k + 1 =>
      have h2 : 2 ≤ fuel := by omega
      rw [if_pos h2]
      have hk1 : k < max (fuel - 1) 1 := by omega
      have hle1 : (t + dt) + k * dt ≤ t1e := by
        push_cast at hle ⊢
        linarith
      have := ih (fuel - 1) (by omega) (t + dt) k hk1 hle1
      omega

/-- The sampling loop never produces more than `max fuel 1` samples. -/
theorem kinGo_length_le (x0 v0 a dt t1e : ℚ) :
    ∀ (fuel : ℕ) (t : ℚ), (kinGo x0 v0 a dt t1e t fuel).length ≤ max fuel 1 := by
  intro fuel
  induction fuel using Nat.strong_induction_on with
  | _ fuel ih =>
    intro t
    rw [kinGo_unfold]
    by_cases htle : t ≤ t1e
    · rw [if_pos htle, List.length_cons]
      by_cases h2 : 2 ≤ fuel
      · rw [if_pos h2]
        have := ih (fuel - 1) (by omega) (t + dt)
        omega
      · rw [if_neg h2]
        simp
    · rw [if_neg htle]
      simp

theorem computeKinematics_times (x0 v0 a t0 t1 dt : ℚ) (mp : ℕ) (hdt : 0 < dt) :
    (computeKinematics x0 v0 a t0 t1 dt mp).times
      = (kinGo x0 v0 a dt (t1 + eps) t0 mp).map Sample.t := by
  unfold computeKinematics
  rw [if_neg (not_le.mpr hdt)]

theorem computeKinematics_xs (x0 v0 a t0 t1 dt : ℚ) (mp : ℕ) (hdt : 0 < dt) :
    (computeKinematics x0 v0 a t0 t1 dt mp).xs
      = (kinGo x0 v0 a dt (t1 + eps) t0 mp).map Sample.x := by
  unfold computeKinematics
  rw [if_neg (not_le.mpr hdt)]

theorem computeKinematics_vs (x0 v0 a t0 t1 dt : ℚ) (mp : ℕ) (hdt : 0 < dt) :
    (computeKinematics x0 v0 a t0 t1 dt mp).vs
      = (kinGo x0 v0 a dt (t1 + eps) t0 mp).map Sample.v := by
  unfold computeKinematics
  rw [if_neg (not_le.mpr hdt)]

theorem computeKinematics_accs (x0 v0 a t0 t1 dt : ℚ) (mp : ℕ) (hdt : 0 < dt) :
    (computeKinematics x0 v0 a t0 t1 dt mp).accs
      = (kinGo x0 v0 a dt (t1 + eps) t0 mp).map Sample.a := by
  unfold computeKinematics
  rw [if_neg (not_le.mpr hdt)]

/-- Reading a mapped sample list at an in-range index. -/
theorem getD_map_sample (f : Sample → ℚ) (l : List Sample) {k : ℕ} (hk : k < l.length) :
    (l.map f).getD k 0 = f (l.getD k ⟨0, 0, 0, 0⟩) := by
  rw [List.getD_eq_getElem?_getD, List.getElem?_map, List.getD_eq_getElem?_getD,
    List.getElem?_eq_getElem hk]
  simp

/-- Rounding `round8` fixes any rational whose product with `10^8` is an integer. -/
theorem round8_of_mul_int (q : ℚ) (z : ℤ) (h0 : ¬ q < 0) (hz : q * (pow8 : ℚ) = (z : ℚ)) :
    round8 q = q := by
  unfold round8
  rw [if_neg h0]
  have hfl : (⌊q * (pow8 : ℚ) + 1/2⌋ : ℤ) = z := by
    rw [Int.floor_eq_iff]
    constructor
    · rw [hz]
      linarith
    · rw [hz]
      linarith
  rw [hfl]
  have hp : (pow8 : ℚ) ≠ 0 := by norm_num [pow8]
  field_simp
  linarith [hz]

/-- Rendering zero: `0.toFixed(6)` prints as `0.000000`. -/
theorem toFixed6_zero : toFixed6 0 = "0.000000" := by
  have h : (⌊(0:ℚ) * (pow6 : ℚ) + 1/2⌋ : ℤ) = 0 := by
    rw [Int.floor_eq_iff]
    constructor <;> norm_num
  simp only [toFixed6, toFixed6Abs]
  rw [if_neg (by norm_num), h]
  rfl

/-- The data rows built by `csvFromData` coincide with the zipped per-sample
rows. -/
theorem csvRows_eq (times xs vs accs : List ℚ)
    (hx : xs.length = times.length) (hv : vs.length = times.length)
    (ha : accs.length = times.length) :
    ((List.range times.length).map fun i =>
        [toFixed6 (times.getD i 0), toFixed6 (xs.getD i 0),
         toFixed6 (vs.getD i 0), toFixed6 (accs.getD i 0)]).map
        (fun r => String.intercalate "," r)
      = (times.zip (xs.zip (vs.zip accs))).map csvRowStr := by
  rw [List.map_map]
  apply List.ext_getElem
  · simp [List.length_zip]
    omega
  · intro i h1 h2
    have hit : i < times.length := by simpa using h1
    have hix : i < xs.length := by omega
    have hiv : i < vs.length := by omega
    have hia : i < accs.length := by omega
    simp only [List.getElem_map, List.getElem_range, Function.comp]
    rw [List.getD_eq_getElem times 0 hit, List.getD_eq_getElem xs 0 hix,
      List.getD_eq_getElem vs 0 hiv, List.getD_eq_getElem accs 0 hia]
    simp [List.getElem_zip, csvRowStr]

/-! ### Claim theorems -/

/-- C4: for `xs` of length `N ≥ 3` and `dt ≠ 0`, `computeAFromX` returns the
central second difference at every interior index, computes index `0` from
samples `[0,1,2]` and index `N-1` from samples `[N-3,N-2,N-1]`, and
consequently the first two output entries agree and the last two output
entries agree. -/
theorem computeAFromX_scheme (xs : List ℚ) (dt : ℚ) (hN : 3 ≤ xs.length) (hdt : dt ≠ 0) :
    (∀ i, 1 ≤ i → i ≤ xs.length - 2 →
      (computeAFromX xs dt).getD i 0 =
        (xs.getD (i+1) 0 - 2 * xs.getD i 0 + xs.getD (i-1) 0) / (dt * dt))
    ∧ (computeAFromX xs dt).getD 0 0 =
        (xs.getD 2 0 - 2 * xs.getD 1 0 + xs.getD 0 0) / (dt * dt)
    ∧ (computeAFromX xs dt).getD (xs.length - 1) 0 =
        (xs.getD (xs.length-1) 0 - 2 * xs.getD (xs.length-2) 0 + xs.getD (xs.length-3) 0) / (dt * dt)
    ∧ (computeAFromX xs dt).getD 0 0 = (computeAFromX xs dt).getD 1 0
    ∧ (computeAFromX xs dt).getD (xs.length - 1) 0 = (computeAFromX xs dt).getD (xs.length - 2) 0 := by
  refine ⟨?_, ?_, ?_, ?_, ?_⟩
  · intro i h1 h2
    rw [computeAFromX_getD xs dt (by omega), if_neg (by omega), if_neg (by omega)]
  · rw [computeAFromX_getD xs dt (by omega), if_pos rfl]
  · rw [computeAFromX_getD xs dt (by omega), if_neg (by omega), if_pos rfl]
  · rw [computeAFromX_getD xs dt (show 0 < xs.length by omega), if_pos rfl,
      computeAFromX_getD xs dt (show 1 < xs.length by omega), if_neg (by omega),
      if_neg (by omega)]
  · rw [computeAFromX_getD xs dt (show xs.length - 1 < xs.length by omega),
      if_neg (by omega), if_pos rfl,
      computeAFromX_getD xs dt (show xs.length - 2 < xs.length by omega),
      if_neg (by omega), if_neg (by omega)]
    have e1 : xs.length - 2 + 1 = xs.length - 1 := by omega
    have e2 : xs.length - 2 - 1 = xs.length - 3 := by omega
    rw [e1, e2]

/-- C4 witness: the scheme instantiated at `xs = [0,1,4]`, `dt = 1`. -/
theorem computeAFromX_scheme_witness :
    (computeAFromX [0, 1, 4] 1).getD 0 0 = (computeAFromX [0, 1, 4] 1).getD 1 0
    ∧ (computeAFromX [0, 1, 4] 1).getD 2 0 = (computeAFromX [0, 1, 4] 1).getD 1 0 := by
  obtain ⟨-, -, -, h4, h5⟩ := computeAFromX_scheme [0, 1, 4] 1 (by decide) one_ne_zero
  exact ⟨h4, h5⟩

/-- C5: for inputs of length `N ≥ 2` and `dt ≠ 0`, `computeVFromX` and
`computeAFromV` both compute the forward difference at index `0`, the
backward difference at index `N-1` and the central difference at every
interior index. -/
theorem firstDifference_scheme (s : List ℚ) (dt : ℚ) (h2 : 2 ≤ s.length) (hdt : dt ≠ 0) :
    ((computeVFromX s dt).getD 0 0 = (s.getD 1 0 - s.getD 0 0) / dt
      ∧ (computeVFromX s dt).getD (s.length - 1) 0 =
          (s.getD (s.length-1) 0 - s.getD (s.length-2) 0) / dt
      ∧ ∀ i, 1 ≤ i → i ≤ s.length - 2 →
          (computeVFromX s dt).getD i 0 = (s.getD (i+1) 0 - s.getD (i-1) 0) / (2 * dt))
    ∧ ((computeAFromV s dt).getD 0 0 = (s.getD 1 0 - s.getD 0 0) / dt
      ∧ (computeAFromV s dt).getD (s.length - 1) 0 =
          (s.getD (s.length-1) 0 - s.getD (s.length-2) 0) / dt
      ∧ ∀ i, 1 ≤ i → i ≤ s.length - 2 →
          (computeAFromV s dt).getD i 0 = (s.getD (i+1) 0 - s.getD (i-1) 0) / (2 * dt)) := by
  refine ⟨⟨?_, ?_, ?_⟩, ⟨?_, ?_, ?_⟩⟩
  · rw [computeVFromX_getD s dt (by omega), if_pos rfl]
  · rw [computeVFromX_getD s dt (show s.length - 1 < s.length by omega),
      if_neg (by omega), if_pos rfl]
  · intro i h1 hi
    rw [computeVFromX_getD s dt (by omega), if_neg (by omega), if_neg (by omega)]
  · rw [computeAFromV_getD s dt (by omega), if_pos rfl]
  · rw [computeAFromV_getD s dt (show s.length - 1 < s.length by omega),
      if_neg (by omega), if_pos rfl]
  · intro i h1 hi
    rw [computeAFromV_getD s dt (by omega), if_neg (by omega), if_neg (by omega)]

/-- C5 witness: the scheme instantiated at `s = [0, 1, 4]`, `dt = 1`, interior
index `1`. -/
theorem firstDifference_scheme_witness :
    (computeVFromX [0, 1, 4] 1).getD 0 0 =
        (([0, 1, 4] : List ℚ).getD 1 0 - ([0, 1, 4] : List ℚ).getD 0 0) / 1
    ∧ (computeVFromX [0, 1, 4] 1).getD 1 0 =
        (([0, 1, 4] : List ℚ).getD 2 0 - ([0, 1, 4] : List ℚ).getD 0 0) / (2 * 1)
    ∧ (computeAFromV [0, 1, 4] 1).getD 2 0 =
        (([0, 1, 4] : List ℚ).getD 2 0 - ([0, 1, 4] : List ℚ).getD 1 0) / 1 := by
  obtain ⟨⟨hf, -, hc⟩, ⟨-, hb, -⟩⟩ := firstDifference_scheme [0, 1, 4] 1 (by decide) one_ne_zero
  exact ⟨hf, hc 1 (by omega) (by decide), hb⟩

/-- C8: for every `dt ≤ 0`, `computeKinematics` returns a trajectory whose
four sequences are all empty; the function is total, so no exception is
thrown. -/
theorem computeKinematics_nonpos_dt (x0 v0 a t0 t1 dt : ℚ) (mp : ℕ) (h : dt ≤ 0) :
    (computeKinematics x0 v0 a t0 t1 dt mp).times = []
    ∧ (computeKinematics x0 v0 a t0 t1 dt mp).xs = []
    ∧ (computeKinematics x0 v0 a t0 t1 dt mp).vs = []
    ∧ (computeKinematics x0 v0 a t0 t1 dt mp).accs = [] := by
  simp [computeKinematics, h]

/-- C8 witness: `dt = 0` produces four empty sequences. -/
theorem computeKinematics_nonpos_dt_witness :
    (computeKinematics 0 0 0 0 1 0 1000).times = []
    ∧ (computeKinematics 0 0 0 0 1 0 1000).xs = []
    ∧ (computeKinematics 0 0 0 0 1 0 1000).vs = []
    ∧ (computeKinematics 0 0 0 0 1 0 1000).accs = [] :=
  computeKinematics_nonpos_dt 0 0 0 0 1 0 1000 le_rfl

/-- C9: `applyDragSync` never changes `times`, `dt`, `x0` or `v0`, for any
edited series (including unrecognised ones), any index and any new value;
in particular index `0` is not special-cased. -/
theorem applyDragSync_frame (ct : String) (i : ℕ) (v : ℚ) (s : DragState) :
    (applyDragSync ct i v s).times = s.times
    ∧ (applyDragSync ct i v s).dt = s.dt
    ∧ (applyDragSync ct i v s).x0 = s.x0
    ∧ (applyDragSync ct i v s).v0 = s.v0 := by
  unfold applyDragSync
  split_ifs <;> exact ⟨rfl, rfl, rfl, rfl⟩

/-- C10: on the empty input the integrators return the one-element sequences
`[x0]` resp. `[v0]`; on every non-empty input they preserve the input
length. -/
theorem integrators_length (x0 v0 dt : ℚ) :
    integrateVToX [] x0 dt = [x0]
    ∧ integrateAToV [] v0 dt = [v0]
    ∧ (∀ vs : List ℚ, vs ≠ [] → (integrateVToX vs x0 dt).length = vs.length)
    ∧ (∀ accs : List ℚ, accs ≠ [] → (integrateAToV accs v0 dt).length = accs.length) := by
  refine ⟨rfl, rfl, ?_, ?_⟩
  · intro vs h
    have h1 : 0 < vs.length := List.length_pos.mpr h
    rw [integrateVToX_length]
    omega
  · intro accs h
    have h1 : 0 < accs.length := List.length_pos.mpr h
    rw [integrateAToV_length]
    omega

/-- C10 witness: concrete empty and two-element inputs. -/
theorem integrators_length_witness :
    integrateVToX [] 7 (1/2) = [7]
    ∧ integrateAToV [] 3 (1/2) = [3]
    ∧ (integrateVToX [1, 2] 7 (1/2)).length = 2
    ∧ (integrateAToV [1, 2] 3 (1/2)).length = 2 := by
  obtain ⟨h1, h2, h3, h4⟩ := integrators_length 7 3 (1/2)
  exact ⟨h1, h2, h3 [1, 2] (by simp), h4 [1, 2] (by simp)⟩

/-- C1: `applyDragSync` conforms to the edit-propagation transition table on
states whose four arrays share length `N` with the edited index in range:
a position edit sets the point and re-derives velocity and acceleration with
the differentiators, a velocity edit re-derives position (trapezoidal) and
acceleration, and an acceleration edit re-derives velocity (Euler) and then
position from the newly derived velocity (two-stage chaining); moreover,
after a position edit, re-deriving velocity and acceleration from the stored
position array with the same differentiators reproduces the stored arrays. -/
theorem applyDragSync_table (s : DragState) (N : ℕ)
    (ht : s.times.length = N) (hx : s.xs.length = N) (hv : s.vs.length = N)
    (ha : s.accs.length = N) (i : ℕ) (hi : i < N) (v : ℚ) :
    ((applyDragSync "position" i v s).xs = s.xs.set i v
      ∧ (applyDragSync "position" i v s).vs = computeVFromX (s.xs.set i v) s.dt
      ∧ (applyDragSync "position" i v s).accs = computeAFromX (s.xs.set i v) s.dt
      ∧ computeVFromX (applyDragSync "position" i v s).xs (applyDragSync "position" i v s).dt
          = (applyDragSync "position" i v s).vs
      ∧ computeAFromX (applyDragSync "position" i v s).xs (applyDragSync "position" i v s).dt
          = (applyDragSync "position" i v s).accs)
    ∧ ((applyDragSync "velocity" i v s).vs = s.vs.set i v
      ∧ (applyDragSync "velocity" i v s).xs = integrateVToX (s.vs.set i v) s.x0 s.dt
      ∧ (applyDragSync "velocity" i v s).accs = computeAFromV (s.vs.set i v) s.dt)
    ∧ ((applyDragSync "acceleration" i v s).accs = s.accs.set i v
      ∧ (applyDragSync "acceleration" i v s).vs = integrateAToV (s.accs.set i v) s.v0 s.dt
      ∧ (applyDragSync "acceleration" i v s).xs
          = integrateVToX (integrateAToV (s.accs.set i v) s.v0 s.dt) s.x0 s.dt) :=
  ⟨⟨rfl, rfl, rfl, rfl, rfl⟩, ⟨rfl, rfl, rfl⟩, ⟨rfl, rfl, rfl⟩⟩

/-- C1 witness: the transition table instantiated on `exState` at index `1`,
new value `9`. -/
theorem applyDragSync_table_witness :
    (applyDragSync "position" 1 9 exState).vs = computeVFromX (exState.xs.set 1 9) exState.dt
    ∧ computeVFromX (applyDragSync "position" 1 9 exState).xs (applyDragSync "position" 1 9 exState).dt
        = (applyDragSync "position" 1 9 exState).vs
    ∧ (applyDragSync "acceleration" 1 9 exState).xs
        = integrateVToX (integrateAToV (exState.accs.set 1 9) exState.v0 exState.dt)
            exState.x0 exState.dt := by
  obtain ⟨h1, -, h3⟩ := applyDragSync_table exState 3 rfl rfl rfl rfl 1 (by omega) 9
  exact ⟨h1.2.1, h1.2.2.2.1, h3.2.2⟩

/-- C3: after every `computeKinematics` call the four sequences have equal
length, and after every `applyDragSync` call with in-range index on a state
whose four arrays share length `N ≥ 1` the four sequences again all have
length `N`. -/
theorem equal_lengths :
    (∀ x0 v0 a t0 t1 dt : ℚ, ∀ mp : ℕ,
      (computeKinematics x0 v0 a t0 t1 dt mp).xs.length
          = (computeKinematics x0 v0 a t0 t1 dt mp).times.length
        ∧ (computeKinematics x0 v0 a t0 t1 dt mp).vs.length
          = (computeKinematics x0 v0 a t0 t1 dt mp).times.length
        ∧ (computeKinematics x0 v0 a t0 t1 dt mp).accs.length
          = (computeKinematics x0 v0 a t0 t1 dt mp).times.length)
    ∧ (∀ (ct : String) (i : ℕ) (v : ℚ) (s : DragState) (N : ℕ),
      s.times.length = N → s.xs.length = N → s.vs.length = N → s.accs.length = N →
        1 ≤ N → i < N →
        (applyDragSync ct i v s).times.length = N
          ∧ (applyDragSync ct i v s).xs.length = N
          ∧ (applyDragSync ct i v s).vs.length = N
          ∧ (applyDragSync ct i v s).accs.length = N) := by
  constructor
  · intro x0 v0 a t0 t1 dt mp
    unfold computeKinematics
    split
    · exact ⟨rfl, rfl, rfl⟩
    · simp
  · intro ct i v s N ht hx hv ha hN hi
    unfold applyDragSync
    split_ifs <;>
      refine ⟨?_, ?_, ?_, ?_⟩ <;>
      simp [computeVFromX_length, computeAFromX_length, computeAFromV_length,
        integrateVToX_length, integrateAToV_length, List.length_set, ht, hx, hv, ha] <;>
      omega

/-- C2: with `dt > 0`, `computeKinematics` samples `t = t0, t0+dt, t0+2·dt, …`
while `t ≤ t1 + 1e-12` (every stored sample satisfies the guard, and every
step index below the point cap whose time satisfies the guard is stored),
storing at each sample `x(t) = x0 + v0·t + ½·a·t²`, `v(t) = v0 + a·t` and the
constant `a`, each value rounded to 8 decimal fractional digits; in
particular `generate(0, 5, 2, 0, 10, 0.1)` yields 101 points with
`times[0]=0`, `positions[0]=0`, `velocities[0]=5`, `times[100]=10`,
`positions[100]=150` and `velocities[100]=25`. -/
theorem computeKinematics_samples :
    (∀ x0 v0 a t0 t1 dt : ℚ, ∀ mp : ℕ, 0 < dt →
      ∀ k : ℕ, k < (computeKinematics x0 v0 a t0 t1 dt mp).times.length →
        t0 + k * dt ≤ t1 + eps
        ∧ (computeKinematics x0 v0 a t0 t1 dt mp).times.getD k 0 = round8 (t0 + k * dt)
        ∧ (computeKinematics x0 v0 a t0 t1 dt mp).xs.getD k 0
            = round8 (x0 + v0 * (t0 + k * dt) + (1/2) * a * ((t0 + k * dt) * (t0 + k * dt)))
        ∧ (computeKinematics x0 v0 a t0 t1 dt mp).vs.getD k 0 = round8 (v0 + a * (t0 + k * dt))
        ∧ (computeKinematics x0 v0 a t0 t1 dt mp).accs.getD k 0 = round8 a)
    ∧ (∀ x0 v0 a t0 t1 dt : ℚ, ∀ mp k : ℕ, 0 < dt → k < max mp 1 →
        t0 + k * dt ≤ t1 + eps →
        k < (computeKinematics x0 v0 a t0 t1 dt mp).times.length)
    ∧ ((computeKinematics 0 5 2 0 10 (1/10) 1000).times.length = 101
      ∧ (computeKinematics 0 5 2 0 10 (1/10) 1000).times.getD 0 0 = 0
      ∧ (computeKinematics 0 5 2 0 10 (1/10) 1000).xs.getD 0 0 = 0
      ∧ (computeKinematics 0 5 2 0 10 (1/10) 1000).vs.getD 0 0 = 5
      ∧ (computeKinematics 0 5 2 0 10 (1/10) 1000).times.getD 100 0 = 10
      ∧ (computeKinematics 0 5 2 0 10 (1/10) 1000).xs.getD 100 0 = 150
      ∧ (computeKinematics 0 5 2 0 10 (1/10) 1000).vs.getD 100 0 = 25) := by
  refine ⟨?_, ?_, ?_⟩
  · intro x0 v0 a t0 t1 dt mp hdt k hk
    rw [computeKinematics_times x0 v0 a t0 t1 dt mp hdt, List.length_map] at hk
    obtain ⟨hs, hc⟩ := kinGo_getD x0 v0 a dt (t1 + eps) mp t0 k hk
    refine ⟨hc, ?_, ?_, ?_, ?_⟩
    · rw [computeKinematics_times x0 v0 a t0 t1 dt mp hdt, getD_map_sample _ _ hk, hs]
      rfl
    · rw [computeKinematics_xs x0 v0 a t0 t1 dt mp hdt, getD_map_sample _ _ hk, hs]
      rfl
    · rw [computeKinematics_vs x0 v0 a t0 t1 dt mp hdt, getD_map_sample _ _ hk, hs]
      rfl
    · rw [computeKinematics_accs x0 v0 a t0 t1 dt mp hdt, getD_map_sample _ _ hk, hs]
      rfl
  · intro x0 v0 a t0 t1 dt mp k hdt hkm hle
    rw [computeKinematics_times x0 v0 a t0 t1 dt mp hdt, List.length_map]
    exact kinGo_length_ge x0 v0 a dt (t1 + eps) hdt mp t0 k hkm hle
  · have hdt : (0:ℚ) < 1/10 := by norm_num
    have hlen : (kinGo 0 5 2 (1/10) (10 + eps) 0 1000).length = 101 := by
      have hge := kinGo_length_ge 0 5 2 (1/10) (10 + eps) hdt 1000 0 100
        (by omega) (by push_cast; norm_num [eps])
      have hub : (kinGo 0 5 2 (1/10) (10 + eps) 0 1000).length ≤ 101 := by
        by_contra hcon
        push_neg at hcon
        have := (kinGo_getD 0 5 2 (1/10) (10 + eps) 1000 0 101 (by omega)).2
        push_cast at this
        norm_num [eps] at this
      omega
    have h0 : 0 < (kinGo 0 5 2 (1/10) (10 + eps) 0 1000).length := by omega
    have h100 : 100 < (kinGo 0 5 2 (1/10) (10 + eps) 0 1000).length := by omega
    obtain ⟨hs0, -⟩ := kinGo_getD 0 5 2 (1/10) (10 + eps) 1000 0 0 h0
    obtain ⟨hs100, -⟩ := kinGo_getD 0 5 2 (1/10) (10 + eps) 1000 0 100 h100
    refine ⟨?_, ?_, ?_, ?_, ?_, ?_, ?_⟩
    · rw [computeKinematics_times 0 5 2 0 10 (1/10) 1000 hdt, List.length_map, hlen]
    · rw [computeKinematics_times 0 5 2 0 10 (1/10) 1000 hdt, getD_map_sample _ _ h0, hs0]
      show round8 (0 + ((0:ℕ):ℚ) * (1/10)) = 0
      rw [show (0:ℚ) + ((0:ℕ):ℚ) * (1/10) = 0 by push_cast; ring]
      exact round8_of_mul_int 0 0 (by norm_num) (by norm_num)
    · rw [computeKinematics_xs 0 5 2 0 10 (1/10) 1000 hdt, getD_map_sample _ _ h0, hs0]
      show round8 (0 + 5 * (0 + ((0:ℕ):ℚ) * (1/10))
        + (1/2) * 2 * ((0 + ((0:ℕ):ℚ) * (1/10)) * (0 + ((0:ℕ):ℚ) * (1/10)))) = 0
      rw [show (0:ℚ) + 5 * (0 + ((0:ℕ):ℚ) * (1/10))
        + (1/2) * 2 * ((0 + ((0:ℕ):ℚ) * (1/10)) * (0 + ((0:ℕ):ℚ) * (1/10))) = 0 by
          push_cast; ring]
      exact round8_of_mul_int 0 0 (by norm_num) (by norm_num)
    · rw [computeKinematics_vs 0 5 2 0 10 (1/10) 1000 hdt, getD_map_sample _ _ h0, hs0]
      show round8 (5 + 2 * (0 + ((0:ℕ):ℚ) * (1/10))) = 5
      rw [show (5:ℚ) + 2 * (0 + ((0:ℕ):ℚ) * (1/10)) = 5 by push_cast; ring]
      exact round8_of_mul_int 5 500000000 (by norm_num) (by norm_num [pow8])
    · rw [computeKinematics_times 0 5 2 0 10 (1/10) 1000 hdt, getD_map_sample _ _ h100, hs100]
      show round8 (0 + ((100:ℕ):ℚ) * (1/10)) = 10
      rw [show (0:ℚ) + ((100:ℕ):ℚ) * (1/10) = 10 by push_cast; norm_num]
      exact round8_of_mul_int 10 1000000000 (by norm_num) (by norm_num [pow8])
    · rw [computeKinematics_xs 0 5 2 0 10 (1/10) 1000 hdt, getD_map_sample _ _ h100, hs100]
      show round8 (0 + 5 * (0 + ((100:ℕ):ℚ) * (1/10))
        + (1/2) * 2 * ((0 + ((100:ℕ):ℚ) * (1/10)) * (0 + ((100:ℕ):ℚ) * (1/10)))) = 150
      rw [show (0:ℚ) + 5 * (0 + ((100:ℕ):ℚ) * (1/10))
        + (1/2) * 2 * ((0 + ((100:ℕ):ℚ) * (1/10)) * (0 + ((100:ℕ):ℚ) * (1/10))) = 150 by
          push_cast; norm_num]
      exact round8_of_mul_int 150 15000000000 (by norm_num) (by norm_num [pow8])
    · rw [computeKinematics_vs 0 5 2 0 10 (1/10) 1000 hdt, getD_map_sample _ _ h100, hs100]
      show round8 (5 + 2 * (0 + ((100:ℕ):ℚ) * (1/10))) = 25
      rw [show (5:ℚ) + 2 * (0 + ((100:ℕ):ℚ) * (1/10)) = 25 by push_cast; norm_num]
      exact round8_of_mul_int 25 2500000000 (by norm_num) (by norm_num [pow8])

/-- C2 witness: the sampling description instantiated at
`generate(1, 1, 0, 0, 0, 1, maxPoints=5)`, index `0`. -/
theorem computeKinematics_samples_witness :
    0 < (computeKinematics 1 1 0 0 0 1 5).times.length
    ∧ ((0:ℚ) + (0:ℕ) * 1 ≤ 0 + eps
      ∧ (computeKinematics 1 1 0 0 0 1 5).times.getD 0 0 = round8 (0 + (0:ℕ) * 1)
      ∧ (computeKinematics 1 1 0 0 0 1 5).xs.getD 0 0
          = round8 (1 + 1 * (0 + (0:ℕ) * 1) + (1/2) * 0 * ((0 + (0:ℕ) * 1) * (0 + (0:ℕ) * 1)))
      ∧ (computeKinematics 1 1 0 0 0 1 5).vs.getD 0 0 = round8 (1 + 0 * (0 + (0:ℕ) * 1))
      ∧ (computeKinematics 1 1 0 0 0 1 5).accs.getD 0 0 = round8 0) := by
  have hlen : 0 < (computeKinematics 1 1 0 0 0 1 5).times.length :=
    computeKinematics_samples.2.1 1 1 0 0 0 1 5 0 (by norm_num) (by omega)
      (by push_cast; norm_num [eps])
  exact ⟨hlen, computeKinematics_samples.1 1 1 0 0 0 1 5 (by norm_num) 0 hlen⟩

/-- C7: with `dt > 0` and a time window that admits at least `maxPoints`
samples, `computeKinematics` silently truncates, returning exactly
`maxPoints` points; in particular `generate(0, 0, 0, 0, 1000, 0.001,
maxPoints=1000)` yields exactly 1000 points. -/
theorem computeKinematics_truncation :
    (∀ x0 v0 a t0 t1 dt : ℚ, ∀ mp : ℕ, 0 < dt → 1 ≤ mp →
      t0 + ((mp - 1 : ℕ) : ℚ) * dt ≤ t1 + eps →
      (computeKinematics x0 v0 a t0 t1 dt mp).times.length = mp)
    ∧ (computeKinematics 0 0 0 0 1000 (1/1000) 1000).times.length = 1000 := by
  have main : ∀ x0 v0 a t0 t1 dt : ℚ, ∀ mp : ℕ, 0 < dt → 1 ≤ mp →
      t0 + ((mp - 1 : ℕ) : ℚ) * dt ≤ t1 + eps →
      (computeKinematics x0 v0 a t0 t1 dt mp).times.length = mp := by
    intro x0 v0 a t0 t1 dt mp hdt hmp hreach
    rw [computeKinematics_times x0 v0 a t0 t1 dt mp hdt, List.length_map]
    have hge := kinGo_length_ge x0 v0 a dt (t1 + eps) hdt mp t0 (mp - 1) (by omega) hreach
    have hle := kinGo_length_le x0 v0 a dt (t1 + eps) mp t0
    omega
  exact ⟨main, main 0 0 0 0 1000 (1/1000) 1000 (by norm_num) (by omega)
    (by push_cast; norm_num [eps])⟩

/-- C7 witness: truncation at `maxPoints = 3` on the window `[0, 1000]` with
`dt = 1`. -/
theorem computeKinematics_truncation_witness :
    (0:ℚ) < 1 ∧ 1 ≤ 3 ∧ ((0:ℚ) + ((3 - 1 : ℕ) : ℚ) * 1 ≤ 1000 + eps)
    ∧ (computeKinematics 0 0 0 0 1000 1 3).times.length = 3 := by
  refine ⟨by norm_num, by omega, by push_cast; norm_num [eps], ?_⟩
  exact computeKinematics_truncation.1 0 0 0 0 1000 1 3 (by norm_num) (by omega)
    (by push_cast; norm_num [eps])

/-- C6 counterexample: at the one-sample trajectory `(0, 0, 0, 0)` the CSV
output has no space after the header commas and no trailing newline, so it
differs from the bit-for-bit output the claim describes (header row
`t (s), x (m), v (m/s), a (m/s^2)` and newline-terminated rows). -/
theorem csvFromData_counterexample :
    csvFromData [0] [0] [0] [0]
        = "t (s),x (m),v (m/s),a (m/s^2)\n0.000000,0.000000,0.000000,0.000000"
    ∧ csvFromData [0] [0] [0] [0]
        ≠ "t (s), x (m), v (m/s), a (m/s^2)\n0.000000,0.000000,0.000000,0.000000\n" := by
  have he : csvFromData [0] [0] [0] [0]
      = "t (s),x (m),v (m/s),a (m/s^2)\n0.000000,0.000000,0.000000,0.000000" := by
    have hl : ([0] : List ℚ).length = 1 := rfl
    have hr1 : List.range 1 = [0] := rfl
    simp only [csvFromData, hl, hr1, List.map_cons, List.map_nil,
      List.getD_cons_zero, toFixed6_zero]
    rfl
  refine ⟨he, ?_⟩
  rw [he]
  decide

/-- C6 (amended): the CSV serialization of a trajectory (four equal-length
arrays) is the header row `t (s),x (m),v (m/s),a (m/s^2)` (no spaces after
the commas) followed by one data row per sample giving `(t, x, v, a)` each
with fixed 6-decimal formatting, fields comma-separated, rows separated by
single newlines with no trailing newline. -/
theorem csvFromData_spec (times xs vs accs : List ℚ)
    (hx : xs.length = times.length) (hv : vs.length = times.length)
    (ha : accs.length = times.length) :
    csvFromData times xs vs accs = csvSpec (times.zip (xs.zip (vs.zip accs))) := by
  simp only [csvFromData, csvSpec]
  rw [List.map_cons, csvRows_eq times xs vs accs hx hv ha]
  rfl

/-- C6 witness: the amended serialization contract at the one-sample
trajectory `(0, 0, 0, 0)`. -/
theorem csvFromData_spec_witness :
    csvFromData [0] [0] [0] [0]
      = csvSpec (([0] : List ℚ).zip (([0] : List ℚ).zip (([0] : List ℚ).zip ([0] : List ℚ)))) :=
  csvFromData_spec [0] [0] [0] [0] rfl rfl rfl

/-- C3 witness: equal lengths on a concrete generated trajectory and a
concrete edit of `exState`. -/
theorem equal_lengths_witness :
    ((computeKinematics 0 5 2 0 10 (1/10) 1000).xs.length
        = (computeKinematics 0 5 2 0 10 (1/10) 1000).times.length
      ∧ (computeKinematics 0 5 2 0 10 (1/10) 1000).vs.length
        = (computeKinematics 0 5 2 0 10 (1/10) 1000).times.length
      ∧ (computeKinematics 0 5 2 0 10 (1/10) 1000).accs.length
        = (computeKinematics 0 5 2 0 10 (1/10) 1000).times.length)
    ∧ ((applyDragSync "velocity" 2 9 exState).times.length = 3
      ∧ (applyDragSync "velocity" 2 9 exState).xs.length = 3
      ∧ (applyDragSync "velocity" 2 9 exState).vs.length = 3
      ∧ (applyDragSync "velocity" 2 9 exState).accs.length = 3) := by
  obtain ⟨h1, h2⟩ := equal_lengths
  exact ⟨h1 0 5 2 0 10 (1/10) 1000, h2 "velocity" 2 9 exState 3 rfl rfl rfl rfl (by omega) (by omega)⟩

end Kineso
